import Mathlib

/-!
Verification of the core of an SMPP 3.4 ESME client
(`vumi/transports/smpp/clientserver/client.py`).

The Python source is shallowly embedded: the shared redis store is a record
`RState` threaded through each operation, byte strings are `List Nat`,
scheduler/transport effects are returned as explicit lists of sent PDUs or
issued store operations, and the single random draw `randint(1, 255)` is an
explicit argument constrained to `[1, 255]` in each theorem.
-/

set_option maxRecDepth 10000

/-- State of the shared redis store as used by the client: the
`smpp_last_sequence_number` counter key, the `smpp_last_sequence_number_wrap`
lock key together with its TTL (`none` = no expiry set), and the `unacked`
list key. A `none` key is absent. -/
structure RState where
  counter : Option Nat := none
  lock : Option Nat := none
  lockTTL : Option Nat := none
  unacked : List Nat := []
deriving DecidableEq

/-- Redis operations issued against the store by `_reset_seq_counter`,
recorded in program order. -/
inductive ROp where
  | setnx
  | ttl
  | expire
  | get
  | del
deriving DecidableEq

/-- Redis `INCR`: lazily creates the counter at 0 and increments, returning
the incremented value. -/
def redis_incr (st : RState) : Nat × RState :=
  let v := st.counter.getD 0 + 1
  (v, { st with counter := some v })

/-- Redis `TTL` of the lock key: `-2` when the key is absent, `-1` when it
has no expiry, the remaining time otherwise. -/
def lock_ttl (st : RState) : Int :=
  match st.lock with
  | none => -2
  | some _ =>
    match st.lockTTL with
    | none => -1
    | some t => (t : Int)

/-- Embedding of `_reset_seq_counter` (client.py lines 84-119): `SETNX` on the
lock key, then a `TTL` check that sets a 10-second expiry when the lock has
none, then — only when the lock was acquired — a `GET` of the counter and a
`DELETE` when it is still at least `0xFFFF0000`. Returns the new store state
and the list of redis operations issued, in order. -/
def _reset_seq_counter (st : RState) : RState × List ROp :=
  let locked := st.lock.isNone
  let st1 := if locked then { st with lock := some 1, lockTTL := none } else st
  let expired := lock_ttl st1 < 0
  let st2 := if expired then { st1 with lockTTL := some 10 } else st1
  let ops2 := if expired then [ROp.setnx, ROp.ttl, ROp.expire] else [ROp.setnx, ROp.ttl]
  if locked then
    match st2.counter with
    | none => (st2, ops2 ++ [ROp.get])
    | some n =>
      if n < 0xFFFF0000 then (st2, ops2 ++ [ROp.get])
      else ({ st2 with counter := none }, ops2 ++ [ROp.get, ROp.del])
  else
    (st2, ops2)

/-- Embedding of `get_next_seq` (client.py lines 64-82): `INCR` the counter,
and when the result is at least `0xFFFF0000` attempt a cooperative reset; the
incremented value is returned either way. -/
def get_next_seq (st : RState) : Nat × RState :=
  let (seq, st1) := redis_incr st
  if 0xFFFF0000 ≤ seq then (seq, (_reset_seq_counter st1).1) else (seq, st1)

/-- Big-endian value of the first four bytes of the buffer, as computed by
`int(binascii.b2a_hex(datastream[0:4]), 16)`. -/
def beVal4 : List Nat → Nat
  | b0 :: b1 :: b2 :: b3 :: _ => ((b0 * 256 + b1) * 256 + b2) * 256 + b3
  | _ => 0

/-- Embedding of `pop_data` (client.py lines 121-128): when the buffer holds
at least 16 bytes and at least `command_length` bytes (big-endian in the
first four bytes), return the first `command_length` bytes and drop them from
the buffer; otherwise return `none` and leave the buffer unchanged. -/
def pop_data (buf : List Nat) : Option (List Nat) × List Nat :=
  if 16 ≤ buf.length then
    let command_length := beVal4 buf
    if command_length ≤ buf.length then
      (some (buf.take command_length), buf.drop command_length)
    else
      (none, buf)
  else
    (none, buf)

/-- Embedding of `push_unacked` (client.py lines 303-306): redis `LPUSH`
prepends the sequence number to the head of the `unacked` list. -/
def push_unacked (sequence_number : Nat) (st : RState) : RState :=
  { st with unacked := sequence_number :: st.unacked }

/-- Embedding of `pop_unacked` (client.py lines 308-311): redis `LPOP`
removes and returns the head of the `unacked` list. -/
def pop_unacked (st : RState) : Option Nat × RState :=
  (st.unacked.head?, { st with unacked := st.unacked.tail })

/-- C1: every value returned by `get_next_seq` lies in `[1, 0xFFFFFFFF]`;
while the returned value stays below the reset threshold `0xFFFF0000` the
next call returns a strictly larger value (the successor), and when the
threshold is reached the cooperative reset deletes the counter (the lock
being free) so that the next call restarts at 1. -/
theorem get_next_seq_C1 (st : RState)
    (hInv : ∀ n, st.counter = some n → n < 0xFFFF0000)
    (hLock : st.lock = none) :
    1 ≤ (get_next_seq st).1 ∧ (get_next_seq st).1 ≤ 0xFFFFFFFF ∧
    ((get_next_seq st).1 < 0xFFFF0000 →
      ((get_next_seq st).2).counter = some (get_next_seq st).1 ∧
      (get_next_seq ((get_next_seq st).2)).1 = (get_next_seq st).1 + 1) ∧
    (0xFFFF0000 ≤ (get_next_seq st).1 →
      ((get_next_seq st).2).counter = none ∧
      (get_next_seq ((get_next_seq st).2)).1 = 1) := by
  have hfst : ∀ s : RState, (get_next_seq s).1 = s.counter.getD 0 + 1 := by
    intro s
    simp only [get_next_seq, redis_incr]
    split <;> rfl
  have hb : st.counter.getD 0 + 1 ≤ 0xFFFF0000 := by
    cases h : st.counter with
    | none => simp
    | some n => have := hInv n h; simp; omega
  refine ⟨?_, ?_, ?_, ?_⟩
  · rw [hfst]; omega
  · rw [hfst]; omega
  · intro hlt
    rw [hfst] at hlt
    have hsnd : (get_next_seq st).2 =
        { st with counter := some (st.counter.getD 0 + 1) } := by
      simp only [get_next_seq, redis_incr]
      rw [if_neg (by omega)]
    rw [hsnd]
    exact ⟨by rw [hfst], by rw [hfst, hfst]; rfl⟩
  · intro hge
    rw [hfst] at hge
    have heq : st.counter.getD 0 + 1 = 0xFFFF0000 := by omega
    have hsnd : (get_next_seq st).2 =
        (_reset_seq_counter { st with counter := some (st.counter.getD 0 + 1) }).1 := by
      simp only [get_next_seq, redis_incr]
      rw [if_pos (by omega)]
    have hres : (_reset_seq_counter
        { st with counter := some (st.counter.getD 0 + 1) }).1.counter = none := by
      simp only [_reset_seq_counter, lock_ttl, hLock, heq]
      simp
    rw [hsnd]
    exact ⟨hres, by rw [hfst, hres]; rfl⟩

/-- C1 witness: from the initial store the first value is 1 and the next is
2; from a store holding `0xFFFEFFFF` the call returns `0xFFFF0000`, the
counter is reset, and the next call returns 1. -/
theorem get_next_seq_C1_witness :
    (1 ≤ (get_next_seq {}).1 ∧
      (get_next_seq ((get_next_seq {}).2)).1 = (get_next_seq {}).1 + 1) ∧
    ((get_next_seq { counter := some 0xFFFEFFFF }).1 = 0xFFFF0000 ∧
      (get_next_seq ((get_next_seq { counter := some 0xFFFEFFFF }).2)).1 = 1) := by
  have h1 := get_next_seq_C1 {} (by intro n h; simp at h) rfl
  have h2 := get_next_seq_C1 { counter := some 0xFFFEFFFF }
    (by intro n h; simp at h; omega) rfl
  refine ⟨⟨h1.1, ?_⟩, ?_, ?_⟩
  · exact (h1.2.2.1 (by decide)).2
  · decide
  · exact (h2.2.2.2 (by decide)).2

/-- C6: for every byte buffer, `pop_data` returns `none` and leaves the
buffer unchanged when the buffer holds fewer than 16 bytes or fewer than
`command_length` bytes (big-endian in the first four bytes); otherwise it
returns the first `command_length` bytes and removes exactly those bytes, so
the returned frame followed by the remaining buffer reconstitutes the
original stream. -/
theorem pop_data_C6 (buf : List Nat) (hbytes : ∀ b ∈ buf, b < 256) :
    (buf.length < 16 ∨ buf.length < beVal4 buf →
      pop_data buf = (none, buf)) ∧
    (16 ≤ buf.length → beVal4 buf ≤ buf.length →
      pop_data buf = (some (buf.take (beVal4 buf)), buf.drop (beVal4 buf)) ∧
      buf.take (beVal4 buf) ++ buf.drop (beVal4 buf) = buf) := by
  constructor
  · intro h
    simp only [pop_data]
    rcases h with h | h
    · rw [if_neg (by omega)]
    · by_cases h16 : 16 ≤ buf.length
      · rw [if_pos h16, if_neg (by omega)]
      · rw [if_neg h16]
  · intro h16 hcl
    simp only [pop_data]
    rw [if_pos h16, if_pos hcl]
    exact ⟨rfl, List.take_append_drop _ _⟩

/-- C6 witness: a 4-byte buffer is left untouched, and a 16-byte buffer whose
length prefix reads 16 is popped whole, leaving an empty buffer. -/
theorem pop_data_C6_witness :
    pop_data [0, 0, 0, 2] = (none, [0, 0, 0, 2]) ∧
    pop_data [0, 0, 0, 16, 0, 0, 0, 1, 0, 0, 0, 0, 0, 0, 0, 1] =
      (some [0, 0, 0, 16, 0, 0, 0, 1, 0, 0, 0, 0, 0, 0, 0, 1], []) := by
  constructor
  · exact (pop_data_C6 [0, 0, 0, 2] (by decide)).1 (by decide)
  · have h := (pop_data_C6 [0, 0, 0, 16, 0, 0, 0, 1, 0, 0, 0, 0, 0, 0, 0, 1]
      (by decide)).2 (by decide) (by decide)
    exact h.1.trans (by decide)

/-- C7 counterexample: with the reset lock already held by another allocator
(and carrying no expiry), `_reset_seq_counter` does not stop after the failed
`SETNX`: it still issues a `TTL` check and an `EXPIRE` against the store. -/
theorem _reset_seq_counter_C7_counterexample :
    (_reset_seq_counter
        { counter := some 5, lock := some 1, lockTTL := none, unacked := [] }).2 =
      [ROp.setnx, ROp.ttl, ROp.expire] ∧
    (_reset_seq_counter
        { counter := some 5, lock := some 1, lockTTL := none, unacked := [] }).2 ≠
      [ROp.setnx] := by
  decide

/-- C7 (amended): when the `SETNX` on the lock key fails, the resetter still
issues a `TTL` check (and an `EXPIRE` when the lock has no expiry) but never
reads or deletes the counter key, which is left unchanged; the counter key is
deleted only when the lock was acquired and the stored value is still at
least `0xFFFF0000`. -/
theorem _reset_seq_counter_C7 (st : RState) :
    (st.lock ≠ none →
      ((_reset_seq_counter st).2 = [ROp.setnx, ROp.ttl] ∨
        (_reset_seq_counter st).2 = [ROp.setnx, ROp.ttl, ROp.expire]) ∧
      ((_reset_seq_counter st).1).counter = st.counter ∧
      ROp.get ∉ (_reset_seq_counter st).2 ∧
      ROp.del ∉ (_reset_seq_counter st).2) ∧
    (ROp.del ∈ (_reset_seq_counter st).2 →
      st.lock = none ∧ ∃ n, st.counter = some n ∧ 0xFFFF0000 ≤ n) := by
  cases hlk : st.lock with
  | none =>
    refine ⟨fun h => absurd rfl h, fun hdel => ⟨rfl, ?_⟩⟩
    cases hc : st.counter with
    | none => simp [_reset_seq_counter, lock_ttl, hlk, hc] at hdel
    | some n =>
      by_cases hn : n < 0xFFFF0000
      · simp [_reset_seq_counter, lock_ttl, hlk, hc, hn] at hdel
      · exact ⟨n, rfl, by omega⟩
  | some v =>
    cases hTTL : st.lockTTL with
    | none =>
      refine ⟨fun _ => ?_, fun hdel => ?_⟩
      · simp [_reset_seq_counter, lock_ttl, hlk, hTTL]
      · simp [_reset_seq_counter, lock_ttl, hlk, hTTL] at hdel
    | some t =>
      have hnn : ¬ ((t : Int) < 0) := by omega
      refine ⟨fun _ => ?_, fun hdel => ?_⟩
      · simp [_reset_seq_counter, lock_ttl, hlk, hTTL, hnn]
      · simp [_reset_seq_counter, lock_ttl, hlk, hTTL, hnn] at hdel

/-- C7 witness for the amended theorem: with the lock held and no expiry, the
issued operations are exactly `SETNX`, `TTL`, `EXPIRE`, the counter key is
untouched, and no `DELETE` is ever issued without the lock. -/
theorem _reset_seq_counter_C7_witness :
    ((_reset_seq_counter
        { counter := some 7, lock := some 1, lockTTL := none, unacked := [] }).2 =
          [ROp.setnx, ROp.ttl] ∨
      (_reset_seq_counter
        { counter := some 7, lock := some 1, lockTTL := none, unacked := [] }).2 =
          [ROp.setnx, ROp.ttl, ROp.expire]) ∧
    ((_reset_seq_counter
        { counter := some 7, lock := some 1, lockTTL := none, unacked := [] }).1).counter =
      some 7 := by
  have h := (_reset_seq_counter_C7
    { counter := some 7, lock := some 1, lockTTL := none, unacked := [] }).1
    (by simp)
  exact ⟨h.1, h.2.1⟩

/-- C9: the unacked ledger is LIFO: `push_unacked` prepends to the head of
the shared list and `pop_unacked` removes from the head, so after pushing `a`
then `b` the next pop returns `b` — the most recently pushed sequence
number — and leaves the ledger as it was after pushing `a`. -/
theorem unacked_lifo_C9 (st : RState) (a b : Nat) :
    (pop_unacked (push_unacked b (push_unacked a st))).1 = some b ∧
    (pop_unacked (push_unacked b (push_unacked a st))).2.unacked =
      (push_unacked a st).unacked ∧
    (push_unacked a st).unacked = a :: st.unacked := by
  exact ⟨rfl, rfl, rfl⟩

/-- Value of a hexadecimal digit character, as accepted by Python
`int(s, 16)` for plain digit strings. -/
def hexDigitVal (c : Char) : Option Nat :=
  if '0' ≤ c ∧ c ≤ '9' then some (c.toNat - 48)
  else if 'a' ≤ c ∧ c ≤ 'f' then some (c.toNat - 87)
  else if 'A' ≤ c ∧ c ≤ 'F' then some (c.toNat - 55)
  else none

/-- Accumulating parse of a list of hexadecimal digit characters. -/
def parseHexDigits : List Char → Nat → Option Nat
  | [], acc => some acc
  | c :: cs, acc =>
    match hexDigitVal c with
    | none => none
    | some d => parseHexDigits cs (acc * 16 + d)

/-- Embedding of Python `int(s, 16)` on plain hexadecimal digit strings:
`none` when the string is empty or holds a non-hex character. -/
def parseHex (s : String) : Option Nat :=
  match s.data with
  | [] => none
  | _ => parseHexDigits s.data 0

/-- Embedding of Python `"%04x" % n`: lowercase hexadecimal digits,
zero-padded on the left to at least four characters. -/
def fmt04x (n : Nat) : String :=
  let ds := Nat.toDigits 16 n
  ⟨List.replicate (4 - ds.length) '0' ++ ds⟩

/-- Embedding of Python `''.join('%02x' % ord(c) for c in message)`: each
byte as two lowercase hexadecimal digits. -/
def hexEncode (message : List Nat) : String :=
  ⟨message.foldr
    (fun b acc =>
      (List.replicate (2 - (Nat.toDigits 16 b).length) '0' ++ Nat.toDigits 16 b) ++ acc)
    []⟩

/-- The three SAR values carried under the `sar_params` key of the submit
keyword arguments. -/
structure SarParams where
  msg_ref_num : Nat
  total_segments : Nat
  segment_seqnum : Nat
deriving DecidableEq

/-- Keyword arguments of `submit_sm` / `_submit_sm` that the client core
inspects. Bind parameters merged into the call are opaque to the core and
omitted. Defaults mirror the `pdu_params.pop` defaults in `_submit_sm`. -/
structure PduParams where
  short_message : List Nat
  esm_class : Option Nat := none
  message_type : String := "sms"
  continue_session : Bool := true
  session_info : Option String := none
  sar_params : Option SarParams := none
deriving DecidableEq

/-- Observable content of a built `submit_sm` PDU: the mandatory
`sequence_number`, `short_message` and `esm_class` parameters and the
optional parameters the client sets. `none` means the parameter was not
set by the client. -/
structure SubmitSMPdu where
  sequence_number : Nat
  short_message : List Nat
  esm_class : Option Nat := none
  ussd_service_op : Option String := none
  its_session_info : Option String := none
  message_payload : Option String := none
  sar_msg_ref_num : Option Nat := none
  sar_total_segments : Option Nat := none
  sar_segment_seqnum : Option Nat := none
deriving DecidableEq

/-- The `GSM_MAX_SMS_BYTES` constant (client.py line 19). -/
def GSM_MAX_SMS_BYTES : Nat := 140

/-- Embedding of `update_ussd_pdu` (client.py lines 22-28): default the
session info to `"0000"`, add `int(not continue_session)` to its hex value,
reformat with `"%04x"`, and set the `ussd_service_op` and `its_session_info`
optional parameters. `none` when the session info is not a hex string
(Python raises `ValueError` there). -/
def update_ussd_pdu (sm_pdu : SubmitSMPdu) (continue_session : Bool)
    (session_info : Option String) : Option SubmitSMPdu :=
  match parseHex (session_info.getD "0000") with
  | none => none
  | some n =>
    some { sm_pdu with
      ussd_service_op := some "02",
      its_session_info := some (fmt04x (n + (if continue_session then 0 else 1))) }

/-- Configuration options of the client core consulted by the submit
pipeline. -/
structure Config where
  send_multipart_sar : Bool := false
  send_multipart_udh : Bool := false
  send_long_messages : Bool := false
deriving DecidableEq

/-- Embedding of `_submit_sm` (client.py lines 347-370): allocate a sequence
number, build the `submit_sm` PDU, apply the USSD annotation when
`message_type` is `"ussd"`, move the message into the `message_payload`
optional parameter when `send_long_messages` is configured and the message
exceeds 254 bytes (the move is modelled from the spec: the builder call
`add_message_payload` is in the external PDU library), set the three SAR
optional parameters when `sar_params` is present, send the PDU and push the
sequence number onto the unacked ledger. -/
def _submit_sm (cfg : Config) (params : PduParams) (st : RState) :
    Option (Nat × RState × SubmitSMPdu) :=
  let sequence_number := (get_next_seq st).1
  let st1 := (get_next_seq st).2
  let pdu0 : SubmitSMPdu :=
    { sequence_number := sequence_number,
      short_message := params.short_message,
      esm_class := params.esm_class }
  let pdu1? := if params.message_type = "ussd" then
      update_ussd_pdu pdu0 params.continue_session params.session_info
    else some pdu0
  match pdu1? with
  | none => none
  | some pdu1 =>
    let pdu2 := if cfg.send_long_messages = true ∧ 254 < params.short_message.length then
        { pdu1 with
          message_payload := some (hexEncode params.short_message),
          short_message := [] }
      else pdu1
    let pdu3 := match params.sar_params with
      | none => pdu2
      | some sp =>
        { pdu2 with
          sar_msg_ref_num := some sp.msg_ref_num,
          sar_total_segments := some sp.total_segments,
          sar_segment_seqnum := some sp.segment_seqnum }
    some (sequence_number, push_unacked sequence_number st1, pdu3)

/-- Message chunking shared by `_submit_multipart_sar` and
`_submit_multipart_udh` (client.py lines 383-385 and 410-412): repeatedly
take `GSM_MAX_SMS_BYTES - 10 = 130` bytes until the message is exhausted. -/
def split130 (message : List Nat) : List (List Nat) :=
  if message = [] then []
  else
    message.take (GSM_MAX_SMS_BYTES - 10) ::
      split130 (message.drop (GSM_MAX_SMS_BYTES - 10))
termination_by message.length
decreasing_by
  rename_i h
  simp [List.length_drop]
  cases message with
  | nil => exact absurd rfl h
  | cons a l => simp [GSM_MAX_SMS_BYTES]

/-- Per-segment loop of `_submit_multipart_sar` (client.py lines 388-397):
submit each chunk with the `sar_params` set to the shared reference number,
the total segment count and the 1-based segment index. -/
def sar_submit_loop (cfg : Config) (ref total : Nat) (base : PduParams) :
    List (List Nat) → Nat → RState → Option (List Nat × RState × List SubmitSMPdu)
  | [], _, st => some ([], st, [])
  | msg :: rest, i, st =>
    match _submit_sm cfg
        { base with short_message := msg, sar_params := some ⟨ref, total, i + 1⟩ } st with
    | none => none
    | some (seq, st1, pdu) =>
      match sar_submit_loop cfg ref total base rest (i + 1) st1 with
      | none => none
      | some (seqs, st2, pdus) => some (seq :: seqs, st2, pdus.cons pdu)

/-- Embedding of `_submit_multipart_sar` (client.py lines 372-398): chunk the
message into 130-byte segments and submit each with SAR optional parameters.
`ref` models the single `randint(1, 255)` draw. -/
def _submit_multipart_sar (cfg : Config) (ref : Nat) (params : PduParams)
    (st : RState) : Option (List Nat × RState × List SubmitSMPdu) :=
  let split_msg := split130 params.short_message
  sar_submit_loop cfg ref split_msg.length params split_msg 0 st

/-- Per-segment loop of `_submit_multipart_udh` (client.py lines 415-428):
submit each chunk with `esm_class` set to `0x40` and the 6-byte UDH
`05 00 03 <ref> <total> <i+1>` prepended to the chunk. -/
def udh_submit_loop (cfg : Config) (ref total : Nat) (base : PduParams) :
    List (List Nat) → Nat → RState → Option (List Nat × RState × List SubmitSMPdu)
  | [], _, st => some ([], st, [])
  | msg :: rest, i, st =>
    match _submit_sm cfg
        { base with
          esm_class := some 0x40,
          short_message := 5 :: 0 :: 3 :: ref :: total :: (i + 1) :: msg } st with
    | none => none
    | some (seq, st1, pdu) =>
      match udh_submit_loop cfg ref total base rest (i + 1) st1 with
      | none => none
      | some (seqs, st2, pdus) => some (seq :: seqs, st2, pdus.cons pdu)

/-- Embedding of `_submit_multipart_udh` (client.py lines 400-429): chunk the
message into 130-byte segments and submit each with a 6-byte UDH and the
UDHI flag. `ref` models the single `randint(1, 255)` draw. -/
def _submit_multipart_udh (cfg : Config) (ref : Nat) (params : PduParams)
    (st : RState) : Option (List Nat × RState × List SubmitSMPdu) :=
  let split_msg := split130 params.short_message
  udh_submit_loop cfg ref split_msg.length params split_msg 0 st

/-- Return value of `submit_sm` as a Python value: the wrong-state branch
returns the integer 0 while the submit branches return a list of sequence
numbers. -/
inductive PyRet where
  | int (n : Nat)
  | list (xs : List Nat)
deriving DecidableEq

/-- Embedding of `submit_sm` (client.py lines 313-345): in a state other
than `BOUND_TX` or `BOUND_TRX` drop the message and return 0; otherwise
dispatch to SAR splitting, UDH splitting or the single-segment submit, and
return the list of assigned sequence numbers together with the new store
state and the PDUs sent. -/
def submit_sm (cfg : Config) (state : String) (ref : Nat) (params : PduParams)
    (st : RState) : Option (PyRet × RState × List SubmitSMPdu) :=
  if ¬ (state = "BOUND_TX" ∨ state = "BOUND_TRX") then
    some (PyRet.int 0, st, [])
  else if GSM_MAX_SMS_BYTES < params.short_message.length ∧ cfg.send_multipart_sar = true then
    match _submit_multipart_sar cfg ref params st with
    | none => none
    | some (seqs, st1, pdus) => some (PyRet.list seqs, st1, pdus)
  else if GSM_MAX_SMS_BYTES < params.short_message.length ∧ cfg.send_multipart_udh = true then
    match _submit_multipart_udh cfg ref params st with
    | none => none
    | some (seqs, st1, pdus) => some (PyRet.list seqs, st1, pdus)
  else
    match _submit_sm cfg params st with
    | none => none
    | some (seq, st1, pdu) => some (PyRet.list [seq], st1, [pdu])

/-- Observable content of a `query_sm` PDU built by `query_sm`. -/
structure QuerySMPdu where
  sequence_number : Nat
  message_id : String
  source_addr : String
deriving DecidableEq

/-- Embedding of `query_sm` (client.py lines 441-451): in `BOUND_TX` or
`BOUND_TRX` allocate a sequence number, send a `query_sm` PDU carrying the
message id and source address, and return the sequence number; otherwise
send nothing and return 0. The unacked ledger is not touched. -/
def query_sm (state : String) (message_id source_addr : String) (st : RState) :
    Nat × RState × List QuerySMPdu :=
  if state = "BOUND_TX" ∨ state = "BOUND_TRX" then
    ((get_next_seq st).1, (get_next_seq st).2,
      [⟨(get_next_seq st).1, message_id, source_addr⟩])
  else (0, st, [])

/-- Results of the external delivery-report and short-message processors for
one PDU, as consulted by `handle_deliver_sm`: whether
`handle_delivery_report_pdu`, `handle_multipart_pdu`, `handle_ussd_pdu` and
`handle_delivery_report_content` report the PDU handled, and whether every
part returned by `decode_pdus` is a unicode string. -/
structure Processors where
  was_dr : Bool
  was_multipart : Bool
  was_ussd : Bool
  decode_all_unicode : Bool
  was_cdr : Bool
deriving DecidableEq

/-- Observable steps of `handle_deliver_sm`, in program order: the
`deliver_sm_resp` send and each processor consultation. -/
inductive DEvent where
  | sent_resp (sequence_number : Nat)
  | dr_pdu
  | multipart_pdu
  | ussd_pdu
  | decode
  | dr_content
  | short_message_pdu
deriving DecidableEq

/-- Embedding of `handle_deliver_sm` (client.py lines 242-283) as the trace
of observable steps: drop the PDU in a wrong state or with a non-OK status;
otherwise send `deliver_sm_resp` echoing the sequence number, then consult
the delivery-report processor, the multipart check, the USSD check, the
decoder, the content-form delivery-report check and finally the plain
short-message handler, stopping at the first one that handles the PDU. -/
def handle_deliver_sm (procs : Processors) (state command_status : String)
    (sequence_number : Nat) : List DEvent :=
  if ¬ (state = "BOUND_RX" ∨ state = "BOUND_TRX") then []
  else if command_status ≠ "ESME_ROK" then []
  else
    DEvent.sent_resp sequence_number ::
    DEvent.dr_pdu ::
    (if procs.was_dr then [] else
      DEvent.multipart_pdu ::
      (if procs.was_multipart then [] else
        DEvent.ussd_pdu ::
        (if procs.was_ussd then [] else
          DEvent.decode ::
          (if ¬ procs.decode_all_unicode then [] else
            DEvent.dr_content ::
            (if procs.was_cdr then [] else [DEvent.short_message_pdu])))))

/-- C2 counterexample: in state `CLOSED`, `submit_sm` sends no PDU and
leaves the store unchanged, but its return value is the integer 0, which is
not an empty list of sequence numbers. -/
theorem submit_sm_C2_counterexample :
    submit_sm {} "CLOSED" 1 { short_message := [104, 105] } {} =
      some (PyRet.int 0, {}, []) ∧
    PyRet.int 0 ≠ PyRet.list [] := by
  exact ⟨by decide, by decide⟩

/-- C2 (amended): for every call to `submit_sm` while the session state is
not `BOUND_TX` and not `BOUND_TRX`, no PDU is sent, the store is unchanged
and the session is not closed, and the call returns the integer 0 (not an
empty list of sequence numbers). -/
theorem submit_sm_C2 (cfg : Config) (state : String) (ref : Nat)
    (params : PduParams) (st : RState)
    (h1 : state ≠ "BOUND_TX") (h2 : state ≠ "BOUND_TRX") :
    submit_sm cfg state ref params st = some (PyRet.int 0, st, []) := by
  simp [submit_sm, h1, h2]

/-- C2 witness: a concrete wrong-state submit returns 0 with no PDUs. -/
theorem submit_sm_C2_witness :
    submit_sm {} "OPEN" 2 { short_message := [1] } {} =
      some (PyRet.int 0, {}, []) :=
  submit_sm_C2 {} "OPEN" 2 { short_message := [1] } {}
    (by decide) (by decide)

/-- An even number ORed with 1 is its successor. -/
theorem even_lor_one (n : Nat) (h : n % 2 = 0) : n ||| 1 = n + 1 := by
  apply Nat.eq_of_testBit_eq
  intro i
  cases i with
  | zero =>
    simp [Nat.testBit_lor, Nat.testBit_zero]
    omega
  | succ i =>
    rw [Nat.testBit_lor]
    have h1 : Nat.testBit 1 (i + 1) = false := by
      simp [Nat.testBit_succ]
    rw [h1, Bool.or_false, Nat.testBit_succ, Nat.testBit_succ]
    congr 1
    omega

/-- C4: for every session info hex string (or absent, defaulting to
`"0000"`) and every continue flag, `update_ussd_pdu` sets the
`ussd_service_op` optional parameter to `02` and sets `its_session_info` to
`int(session_info or "0000", 16) + (0 if continue_session else 1)` formatted
as four lowercase hex digits; in particular, when the parsed value has its
low bit unset and the session does not continue, the result equals
`"%04x" % (int(s, 16) | 1)`. -/
theorem update_ussd_pdu_C4 (sm_pdu : SubmitSMPdu) (continue_session : Bool)
    (session_info : Option String) (n : Nat)
    (hn : parseHex (session_info.getD "0000") = some n) :
    update_ussd_pdu sm_pdu continue_session session_info =
      some { sm_pdu with
        ussd_service_op := some "02",
        its_session_info :=
          some (fmt04x (n + (if continue_session then 0 else 1))) } ∧
    (continue_session = false → n % 2 = 0 →
      (update_ussd_pdu sm_pdu continue_session session_info).map
          (fun p => p.its_session_info) = some (some (fmt04x (n ||| 1)))) := by
  constructor
  · simp [update_ussd_pdu, hn]
  · intro hc he
    simp [update_ussd_pdu, hn, hc, even_lor_one n he]

/-- C4 witness: with session info `"0024"` (low bit unset) and no
continuation, the resulting `its_session_info` is `"0025"`, which is
`"%04x" % (0x24 | 1)`. -/
theorem update_ussd_pdu_C4_witness :
    (update_ussd_pdu { sequence_number := 1, short_message := [] } false
        (some "0024")).map (fun p => p.its_session_info) =
      some (some (fmt04x (0x24 ||| 1))) ∧
    fmt04x (0x24 ||| 1) = "0025" := by
  have h := update_ussd_pdu_C4 { sequence_number := 1, short_message := [] }
    false (some "0024") 0x24 (by decide)
  exact ⟨h.2 rfl (by decide), by decide⟩

/-- The cooperative reset never touches the `unacked` list key. -/
theorem _reset_seq_counter_unacked (st : RState) :
    ((_reset_seq_counter st).1).unacked = st.unacked := by
  unfold _reset_seq_counter
  dsimp only
  split
  · split
    · split <;> rfl
    · split
      · split <;> rfl
      · split <;> rfl
  · split <;> rfl

/-- Allocating a sequence number never touches the `unacked` list key. -/
theorem get_next_seq_unacked (st : RState) :
    ((get_next_seq st).2).unacked = st.unacked := by
  unfold get_next_seq redis_incr
  dsimp only
  split
  · exact _reset_seq_counter_unacked _
  · rfl

/-- C10: in state `BOUND_TX` or `BOUND_TRX`, `query_sm` allocates a fresh
sequence number, sends one `query_sm` PDU carrying the given message id and
source address under that sequence number, and returns the sequence number
without appending it to the unacked ledger; in any other state it sends
nothing, changes nothing and returns 0. -/
theorem query_sm_C10 (state message_id source_addr : String) (st : RState) :
    ((state = "BOUND_TX" ∨ state = "BOUND_TRX") →
      query_sm state message_id source_addr st =
        ((get_next_seq st).1, (get_next_seq st).2,
          [⟨(get_next_seq st).1, message_id, source_addr⟩]) ∧
      ((query_sm state message_id source_addr st).2.1).unacked = st.unacked) ∧
    (¬ (state = "BOUND_TX" ∨ state = "BOUND_TRX") →
      query_sm state message_id source_addr st = (0, st, [])) := by
  constructor
  · intro h
    refine ⟨by simp [query_sm, h], ?_⟩
    simp [query_sm, h, get_next_seq_unacked]
  · intro h
    simp [query_sm, h]

/-- C10 witness: a bound transceiver gets sequence number 1 on a fresh store
with an untouched ledger; an unbound session gets 0 and no PDU. -/
theorem query_sm_C10_witness :
    query_sm "BOUND_TRX" "mid" "addr" {} =
      (1, { counter := some 1 }, [⟨1, "mid", "addr"⟩]) ∧
    query_sm "CLOSED" "mid" "addr" {} = (0, {}, []) := by
  have h1 := (query_sm_C10 "BOUND_TRX" "mid" "addr" {}).1 (Or.inr rfl)
  have h2 := (query_sm_C10 "CLOSED" "mid" "addr" {}).2 (by decide)
  exact ⟨h1.1.trans (by decide), h2⟩

/-- C5: for every `deliver_sm` PDU handled in state `BOUND_RX` or
`BOUND_TRX` with status `ESME_ROK`, the `deliver_sm_resp` echoing the
inbound sequence number is the first observable step, before any processor
is consulted, and the delivery-report processor is consulted next; when it
reports the PDU handled, the trace stops there, so neither the multipart
check, the USSD check, the content-form delivery-report check nor the plain
short-message handler runs; when nothing handles the PDU the full trace
shows the contractual precedence order. -/
theorem handle_deliver_sm_C5 (procs : Processors) (state command_status : String)
    (sequence_number : Nat)
    (hstate : state = "BOUND_RX" ∨ state = "BOUND_TRX")
    (hstatus : command_status = "ESME_ROK") :
    (∃ rest, handle_deliver_sm procs state command_status sequence_number =
      DEvent.sent_resp sequence_number :: DEvent.dr_pdu :: rest) ∧
    (procs.was_dr = true →
      handle_deliver_sm procs state command_status sequence_number =
        [DEvent.sent_resp sequence_number, DEvent.dr_pdu] ∧
      DEvent.multipart_pdu ∉ handle_deliver_sm procs state command_status sequence_number ∧
      DEvent.ussd_pdu ∉ handle_deliver_sm procs state command_status sequence_number ∧
      DEvent.dr_content ∉ handle_deliver_sm procs state command_status sequence_number ∧
      DEvent.short_message_pdu ∉ handle_deliver_sm procs state command_status sequence_number) ∧
    (handle_deliver_sm ⟨false, false, false, true, false⟩ state command_status sequence_number =
      [DEvent.sent_resp sequence_number, DEvent.dr_pdu, DEvent.multipart_pdu,
        DEvent.ussd_pdu, DEvent.decode, DEvent.dr_content, DEvent.short_message_pdu]) := by
  have hs : ¬ ¬ (state = "BOUND_RX" ∨ state = "BOUND_TRX") := not_not_intro hstate
  refine ⟨?_, ?_, ?_⟩
  · refine ⟨(if procs.was_dr then [] else
      DEvent.multipart_pdu ::
      (if procs.was_multipart then [] else
        DEvent.ussd_pdu ::
        (if procs.was_ussd then [] else
          DEvent.decode ::
          (if ¬ procs.decode_all_unicode then [] else
            DEvent.dr_content ::
            (if procs.was_cdr then [] else [DEvent.short_message_pdu]))))), ?_⟩
    simp [handle_deliver_sm, hs, hstatus]
  · intro hdr
    simp [handle_deliver_sm, hs, hstatus, hdr]
  · simp [handle_deliver_sm, hs, hstatus]

/-- C5 witness: with a delivery-report processor that reports the PDU
handled, the trace in `BOUND_TRX` is exactly the acknowledgement followed by
the delivery-report consultation. -/
theorem handle_deliver_sm_C5_witness :
    handle_deliver_sm ⟨true, false, false, true, false⟩ "BOUND_TRX" "ESME_ROK" 7 =
      [DEvent.sent_resp 7, DEvent.dr_pdu] ∧
    DEvent.multipart_pdu ∉
      handle_deliver_sm ⟨true, false, false, true, false⟩ "BOUND_TRX" "ESME_ROK" 7 := by
  have h := handle_deliver_sm_C5 ⟨true, false, false, true, false⟩
    "BOUND_TRX" "ESME_ROK" 7 (Or.inr rfl) rfl
  have h2 := h.2.1 rfl
  exact ⟨h2.1, h2.2.1⟩

/-- The chunks of `split130` concatenate back to the original message. -/
theorem split130_flatten (m : List Nat) : (split130 m).flatten = m := by
  induction m using split130.induct with
  | case1 =>
    rw [split130]
    rfl
  | case2 m h ih =>
    rw [split130, if_neg h]
    simp [ih]

/-- `split130` produces `ceil(N / 130)` chunks for an `N`-byte message. -/
theorem split130_length (m : List Nat) :
    (split130 m).length = (m.length + 129) / 130 := by
  induction m using split130.induct with
  | case1 =>
    rw [split130]
    rfl
  | case2 m h ih =>
    rw [split130, if_neg h]
    have hm : 0 < m.length := List.length_pos.mpr h
    simp only [List.length_cons, ih, List.length_drop]
    show ((m.length - 130) + 129) / 130 + 1 = (m.length + 129) / 130
    omega

/-- Every chunk of `split130` is nonempty and holds at most 130 bytes. -/
theorem split130_mem (m : List Nat) :
    ∀ c ∈ split130 m, c.length ≤ 130 ∧ c ≠ [] := by
  induction m using split130.induct with
  | case1 =>
    rw [split130]
    intro c hc
    simp at hc
  | case2 m h ih =>
    rw [split130, if_neg h]
    intro c hc
    rcases List.mem_cons.mp hc with rfl | hc
    · refine ⟨by simpa [GSM_MAX_SMS_BYTES] using List.length_take_le 130 m, ?_⟩
      rw [Ne, List.take_eq_nil_iff]
      simp [GSM_MAX_SMS_BYTES, h]
    · exact ih c hc

/-- Behaviour of `_submit_sm` on a non-USSD message of at most 254 bytes:
the allocated sequence number is returned and pushed onto the unacked
ledger, and the PDU carries the message, the `esm_class` parameter and the
SAR optional parameters from `sar_params`. -/
theorem _submit_sm_sms (cfg : Config) (params : PduParams) (st : RState)
    (hty : params.message_type ≠ "ussd")
    (hlen : params.short_message.length ≤ 254) :
    _submit_sm cfg params st = some ((get_next_seq st).1,
      push_unacked (get_next_seq st).1 (get_next_seq st).2,
      { sequence_number := (get_next_seq st).1,
        short_message := params.short_message,
        esm_class := params.esm_class,
        sar_msg_ref_num := params.sar_params.map SarParams.msg_ref_num,
        sar_total_segments := params.sar_params.map SarParams.total_segments,
        sar_segment_seqnum := params.sar_params.map SarParams.segment_seqnum }) := by
  simp only [_submit_sm, if_neg hty]
  rw [if_neg (by rintro ⟨-, hl⟩; omega)]
  cases hsp : params.sar_params with
  | none => simp
  | some sp => simp

/-- Behaviour of the SAR per-segment loop on chunks of at most 254 bytes:
one PDU per chunk carrying the chunk as `short_message`, the shared
reference number and total, and consecutive 1-based segment numbers starting
after `i`; the returned sequence numbers are those of the PDUs in order. -/
theorem sar_submit_loop_spec (cfg : Config) (ref total : Nat) (base : PduParams)
    (hty : base.message_type ≠ "ussd") :
    ∀ chunks : List (List Nat), ∀ i : Nat, ∀ st : RState,
      (∀ c ∈ chunks, c.length ≤ 254) →
      ∃ seqs st2 pdus,
        sar_submit_loop cfg ref total base chunks i st = some (seqs, st2, pdus) ∧
        pdus.map (fun p => p.short_message) = chunks ∧
        (∀ p ∈ pdus, p.sar_msg_ref_num = some ref ∧
          p.sar_total_segments = some total) ∧
        pdus.map (fun p => p.sar_segment_seqnum) =
          (List.range chunks.length).map (fun k => some (i + k + 1)) ∧
        seqs = pdus.map (fun p => p.sequence_number) := by
  intro chunks
  induction chunks with
  | nil =>
    intro i st _
    exact ⟨[], st, [], rfl, rfl, by simp, by simp, rfl⟩
  | cons c rest ih =>
    intro i st hsmall
    have hc : c.length ≤ 254 := hsmall c (by simp)
    have hsub := _submit_sm_sms cfg
      { base with short_message := c, sar_params := some ⟨ref, total, i + 1⟩ } st
      hty hc
    obtain ⟨seqs, st2, pdus, hloop, hmap, hfields, hseqnum, hseqs⟩ :=
      ih (i + 1) (push_unacked (get_next_seq st).1 (get_next_seq st).2)
        (fun d hd => hsmall d (by simp [hd]))
    refine ⟨(get_next_seq st).1 :: seqs, st2,
      ({ sequence_number := (get_next_seq st).1,
         short_message := c,
         esm_class := base.esm_class,
         sar_msg_ref_num := some ref,
         sar_total_segments := some total,
         sar_segment_seqnum := some (i + 1) } : SubmitSMPdu) :: pdus,
      ?_, ?_, ?_, ?_, ?_⟩
    · simp only [sar_submit_loop]
      rw [hsub]
      dsimp only
      rw [hloop]
      rfl
    · simp [hmap]
    · intro p hp
      rcases List.mem_cons.mp hp with rfl | hp
      · exact ⟨rfl, rfl⟩
      · exact hfields p hp
    · simp only [List.map_cons, hseqnum, List.length_cons,
        List.range_succ_eq_map, List.map_map]
      refine congrArg₂ _ rfl ?_
      apply List.map_congr_left
      intro k _
      simp only [Function.comp_apply, Option.some.injEq]
      omega
    · simp [hseqs]

/-- C3: for every message longer than 140 bytes submitted with SAR splitting,
`_submit_multipart_sar` produces `ceil(N / 130)` segments whose
`short_message` fields concatenate to exactly the input; all segments carry
the same reference number (the `randint(1, 255)` draw), a
`sar_total_segments` equal to the segment count and `sar_segment_seqnum`
equal to the 1-based segment index; one sequence number is returned per
segment, in order. -/
theorem _submit_multipart_sar_C3 (cfg : Config) (ref : Nat) (params : PduParams)
    (st : RState)
    (hlen : 140 < params.short_message.length)
    (href1 : 1 ≤ ref) (href2 : ref ≤ 255)
    (hty : params.message_type = "sms") :
    ∃ seqs st2 pdus,
      _submit_multipart_sar cfg ref params st = some (seqs, st2, pdus) ∧
      pdus.length = (params.short_message.length + 129) / 130 ∧
      (pdus.map (fun p => p.short_message)).flatten = params.short_message ∧
      (∀ p ∈ pdus, p.sar_msg_ref_num = some ref ∧
        p.sar_total_segments = some pdus.length) ∧
      pdus.map (fun p => p.sar_segment_seqnum) =
        (List.range pdus.length).map (fun k => some (k + 1)) ∧
      seqs = pdus.map (fun p => p.sequence_number) ∧
      seqs.length = pdus.length := by
  obtain ⟨seqs, st2, pdus, hloop, hmap, hfields, hseqnum, hseqs⟩ :=
    sar_submit_loop_spec cfg ref (split130 params.short_message).length params
      (by simp [hty]) (split130 params.short_message) 0 st
      (fun c hc => le_trans (split130_mem _ c hc).1 (by omega))
  have hplen : pdus.length = (split130 params.short_message).length := by
    rw [← hmap]
    simp
  refine ⟨seqs, st2, pdus, hloop, ?_, ?_, ?_, ?_, hseqs, ?_⟩
  · rw [hplen, split130_length]
  · rw [hmap, split130_flatten]
  · intro p hp
    rw [hplen]
    exact hfields p hp
  · rw [hseqnum, hplen]
    apply List.map_congr_left
    intro k _
    simp
  · rw [hseqs]
    simp [hplen]

/-- C3 witness: a 200-byte message splits into two SAR segments that
concatenate back to the message, with matching reference number, totals and
segment numbers. -/
theorem _submit_multipart_sar_C3_witness :
    ∃ seqs st2 pdus,
      _submit_multipart_sar {} 7 { short_message := List.replicate 200 65 } {} =
        some (seqs, st2, pdus) ∧
      pdus.length = 2 ∧
      (pdus.map (fun p => p.short_message)).flatten = List.replicate 200 65 ∧
      (∀ p ∈ pdus, p.sar_msg_ref_num = some 7 ∧
        p.sar_total_segments = some pdus.length) := by
  obtain ⟨seqs, st2, pdus, h1, h2, h3, h4, -⟩ :=
    _submit_multipart_sar_C3 {} 7 { short_message := List.replicate 200 65 } {}
      (by simp) (by decide) (by decide) rfl
  refine ⟨seqs, st2, pdus, h1, ?_, h3, h4⟩
  rw [h2]
  simp

/-- Behaviour of the UDH per-segment loop on chunks of at most 130 bytes:
one PDU per chunk with `esm_class` set to `0x40` and the 6-byte header
`05 00 03 <ref> <total> <index+1>` prepended to the chunk, the indices
counting up from `i`; the returned sequence numbers are those of the PDUs in
order. -/
theorem udh_submit_loop_spec (cfg : Config) (ref total : Nat) (base : PduParams)
    (hty : base.message_type ≠ "ussd") :
    ∀ chunks : List (List Nat), ∀ i : Nat, ∀ st : RState,
      (∀ c ∈ chunks, c.length ≤ 130) →
      ∃ seqs st2 pdus,
        udh_submit_loop cfg ref total base chunks i st = some (seqs, st2, pdus) ∧
        pdus.map (fun p => p.short_message) =
          (chunks.enumFrom i).map
            (fun ic => 5 :: 0 :: 3 :: ref :: total :: (ic.1 + 1) :: ic.2) ∧
        (∀ p ∈ pdus, p.esm_class = some 0x40) ∧
        seqs = pdus.map (fun p => p.sequence_number) := by
  intro chunks
  induction chunks with
  | nil =>
    intro i st _
    exact ⟨[], st, [], rfl, rfl, by simp, rfl⟩
  | cons c rest ih =>
    intro i st hsmall
    have hc : c.length ≤ 130 := hsmall c (by simp)
    have hsub := _submit_sm_sms cfg
      { base with
        esm_class := some 0x40,
        short_message := 5 :: 0 :: 3 :: ref :: total :: (i + 1) :: c } st
      hty (by simp; omega)
    obtain ⟨seqs, st2, pdus, hloop, hmap, hesm, hseqs⟩ :=
      ih (i + 1) (push_unacked (get_next_seq st).1 (get_next_seq st).2)
        (fun d hd => hsmall d (by simp [hd]))
    refine ⟨(get_next_seq st).1 :: seqs, st2,
      ({ sequence_number := (get_next_seq st).1,
         short_message := 5 :: 0 :: 3 :: ref :: total :: (i + 1) :: c,
         esm_class := some 0x40,
         sar_msg_ref_num := base.sar_params.map SarParams.msg_ref_num,
         sar_total_segments := base.sar_params.map SarParams.total_segments,
         sar_segment_seqnum := base.sar_params.map SarParams.segment_seqnum } :
        SubmitSMPdu) :: pdus,
      ?_, ?_, ?_, ?_⟩
    · simp only [udh_submit_loop]
      rw [hsub]
      dsimp only
      rw [hloop]
    · simp [hmap, List.enumFrom]
    · intro p hp
      rcases List.mem_cons.mp hp with rfl | hp
      · rfl
      · exact hesm p hp
    · simp [hseqs]

/-- C8: for every message longer than 140 bytes (and short enough that each
1-byte UDH field fits) submitted with UDH splitting, every segment built by
`_submit_multipart_udh` has `esm_class` equal to `0x40` and a
`short_message` equal to the 6-byte header `05 00 03 <ref> <N> <i>` followed
by the i-th 130-byte chunk of the input, where `ref` is the shared
`randint(1, 255)` draw, `N` is the segment count and `i` the 1-based segment
index; the chunks concatenate to the input and one sequence number is
returned per segment. -/
theorem _submit_multipart_udh_C8 (cfg : Config) (ref : Nat) (params : PduParams)
    (st : RState)
    (hlen : 140 < params.short_message.length)
    (hmax : params.short_message.length ≤ 33150)
    (href1 : 1 ≤ ref) (href2 : ref ≤ 255)
    (hty : params.message_type = "sms") :
    ∃ seqs st2 pdus,
      _submit_multipart_udh cfg ref params st = some (seqs, st2, pdus) ∧
      pdus.length = (params.short_message.length + 129) / 130 ∧
      pdus.length ≤ 255 ∧
      (∀ p ∈ pdus, p.esm_class = some 0x40) ∧
      pdus.map (fun p => p.short_message) =
        ((split130 params.short_message).enumFrom 0).map
          (fun ic => 5 :: 0 :: 3 :: ref :: pdus.length :: (ic.1 + 1) :: ic.2) ∧
      (split130 params.short_message).flatten = params.short_message ∧
      seqs.length = pdus.length := by
  obtain ⟨seqs, st2, pdus, hloop, hmap, hesm, hseqs⟩ :=
    udh_submit_loop_spec cfg ref (split130 params.short_message).length params
      (by simp [hty]) (split130 params.short_message) 0 st
      (fun c hc => (split130_mem _ c hc).1)
  have hplen : pdus.length = (split130 params.short_message).length := by
    have h := congrArg List.length hmap
    simpa using h
  refine ⟨seqs, st2, pdus, hloop, ?_, ?_, hesm, ?_, split130_flatten _, ?_⟩
  · rw [hplen, split130_length]
  · rw [hplen, split130_length]
    omega
  · rw [hmap, hplen]
  · rw [hseqs]
    simp [hplen]

/-- C8 witness: a 150-byte message splits into two UDH segments, each with
the UDHI flag, whose payloads carry the header `05 00 03 09 02 0i` followed
by the 130-byte and 20-byte chunks. -/
theorem _submit_multipart_udh_C8_witness :
    ∃ seqs st2 pdus,
      _submit_multipart_udh {} 9 { short_message := List.replicate 150 66 } {} =
        some (seqs, st2, pdus) ∧
      pdus.length = 2 ∧
      (∀ p ∈ pdus, p.esm_class = some 0x40) ∧
      pdus.map (fun p => p.short_message) =
        [5 :: 0 :: 3 :: 9 :: 2 :: 1 :: List.replicate 130 66,
          5 :: 0 :: 3 :: 9 :: 2 :: 2 :: List.replicate 20 66] := by
  obtain ⟨seqs, st2, pdus, h1, h2, h3, h4, h5, h6, h7⟩ :=
    _submit_multipart_udh_C8 {} 9 { short_message := List.replicate 150 66 } {}
      (by simp) (by simp) (by decide) (by decide) rfl
  have hlen2 : pdus.length = 2 := by
    rw [h2]
    simp
  refine ⟨seqs, st2, pdus, h1, hlen2, h4, ?_⟩
  rw [h5, hlen2]
  have htake1 : (List.replicate 150 66).take (GSM_MAX_SMS_BYTES - 10) =
      List.replicate 130 66 := by
    rw [List.take_replicate]
    norm_num [GSM_MAX_SMS_BYTES]
  have hdrop1 : (List.replicate 150 66).drop (GSM_MAX_SMS_BYTES - 10) =
      List.replicate 20 66 := by
    rw [List.drop_replicate]
    norm_num [GSM_MAX_SMS_BYTES]
  have htake2 : (List.replicate 20 66).take (GSM_MAX_SMS_BYTES - 10) =
      List.replicate 20 66 := by
    rw [List.take_replicate]
    norm_num [GSM_MAX_SMS_BYTES]
  have hdrop2 : (List.replicate 20 66).drop (GSM_MAX_SMS_BYTES - 10) =
      ([] : List Nat) := by
    rw [List.drop_replicate]
    norm_num [GSM_MAX_SMS_BYTES]
  have hsplit : split130 (List.replicate 150 66) =
      [List.replicate 130 66, List.replicate 20 66] := by
    rw [split130, if_neg (by simp), htake1, hdrop1]
    rw [split130, if_neg (by simp), htake2, hdrop2]
    rw [split130, if_pos rfl]
  rw [hsplit]
  rfl
